import Mathlib

/-!
Shallow embedding of the Domino cascading-failure simulator
(`src/domino.py`).  Health values are modelled as rationals; the
process RNG is replaced by explicit parameters (the victim index and
the glitch delta that `random.choice` / `random.uniform` would have
produced); Python dictionaries become association lists kept in
insertion order; fallible dictionary accesses are modelled with
`Option` and `Except`.
-/

namespace Domino

/-- State of one service node (`class Service`, domino.py lines 11-19). -/
structure Service where
  name : String
  depends_on : List String
  health : ℚ
  initial_health : ℚ
  is_failed : Bool
  failed_at_tick : Int
  recovery_timer : Int
deriving DecidableEq

/-- `Service.__init__` (lines 12-19): `depends_on` becomes a set
(deduplicated), the input health is stored as given - the constructor
performs no clamping - and the failure bookkeeping starts clear. -/
def Service.init (name : String) (depends_on : List String) (health : ℚ) : Service :=
  { name := name, depends_on := depends_on.dedup, health := health,
    initial_health := health, is_failed := false,
    failed_at_tick := -1, recovery_timer := -1 }

/-- Simulation configuration.  `ticks` and `seed` are not carried here:
the tick count is a parameter of `runTicks` and the RNG draws are
explicit parameters of `run_tick`.  `cooldown` is `none` when the key
is absent from the config (`'cooldown' not in self.config`). -/
structure Config where
  threshold : ℚ
  alpha : ℚ
  heal_to : ℚ
  cooldown : Option Int
deriving DecidableEq

/-- `self.graph.services[n]` / `.get(n)`: first service with that name. -/
def findService (svs : List Service) (n : String) : Option Service :=
  svs.find? (fun s => s.name == n)

/-- In-place mutation of the service named `n` (Python mutates the
shared `Service` object inside the `services` dict). -/
def updateNamed (svs : List Service) (n : String) (f : Service → Service) : List Service :=
  svs.map (fun t => if t.name == n then f t else t)

/-- `ServiceGraph.build_reverse_adjacency` (lines 34-40) read at one key:
`rev_adj[d]` holds the names of the services listing `d` among their
dependencies, and has an entry only when `d` itself is a service.
The topology (names and `depends_on`) never changes during a run, so
recomputing from the current service list is faithful. -/
def revAdj (svs : List Service) (d : String) : List String :=
  if svs.any (fun s => s.name == d) then
    (svs.filter (fun s => decide (d ∈ s.depends_on))).map (fun s => s.name)
  else []

/-- Ledger events (`self.events`, a list of tagged dicts). -/
inductive Event where
  | glitch (tick : Nat) (service : String) (old_health new_health : ℚ)
  | failure (tick : Nat) (service : String) (health : ℚ)
deriving DecidableEq

/-- One record of `self.incident_log` (lines 301-307). -/
structure Incident where
  tick : Nat
  roots : List String
  impacted : List (String × List String)
  priority : String
deriving DecidableEq

/-- Simulator state threaded through ticks. -/
structure SimState where
  services : List Service
  tick : Nat
  events : List Event
  incidents : List Incident
deriving DecidableEq

/-- Tick-start snapshot (lines 135-136): `initial_health ← health`. -/
def snapshot (svs : List Service) : List Service :=
  svs.map (fun s => { s with initial_health := s.health })

/-- `eligible = [s for s in services if s.health >= threshold]` and the
`random.choice` pick (lines 181-185): `choice` stands for the index the
RNG would draw; an empty eligible list yields no victim. -/
def glitchVictim (cfg : Config) (choice : Nat) (svs : List Service) : Option Service :=
  (svs.filter (fun s => decide (cfg.threshold ≤ s.health)))[choice %
    (svs.filter (fun s => decide (cfg.threshold ≤ s.health))).length]?

/-- `apply_glitch` (lines 180-188).  `delta` stands for the
`random.uniform(0.2, 0.5)` draw.  Returns the new state and, when a
victim was chosen, `(name, old_health, new_health)`. -/
def apply_glitch (cfg : Config) (choice : Nat) (delta : ℚ) (svs : List Service) :
    List Service × Option (String × ℚ × ℚ) :=
  match glitchVictim cfg choice svs with
  | none => (svs, none)
  | some victim =>
      (updateNamed svs victim.name
        (fun t => { t with health := max 0 (victim.health - delta) }),
       some (victim.name, victim.health, max 0 (victim.health - delta)))

/-- Contribution of one dependency name to `total_degradation`
(lines 202-205): dangling names contribute nothing. -/
def depContribution (cfg : Config) (svs : List Service) (dn : String) : ℚ :=
  match findService svs dn with
  | some dep => if dep.health < cfg.threshold then cfg.alpha * (cfg.threshold - dep.health) else 0
  | none => 0

/-- `total_degradation` for one service (lines 201-205). -/
def totalDegradation (cfg : Config) (svs : List Service) (s : Service) : ℚ :=
  (s.depends_on.map (depContribution cfg svs)).sum

/-- Body of the inner `for service in ...` loop of `propagate_health`
(lines 197-211), processing the service named `n` against the current
(Gauss-Seidel style, already partially updated) state `acc.1`;
`acc.2` is the sweep's `changed` flag. -/
def sweepStep (cfg : Config) (acc : List Service × Bool) (n : String) :
    List Service × Bool :=
  match findService acc.1 n with
  | none => acc
  | some s =>
      if s.depends_on.isEmpty then acc
      else
        let td := totalDegradation cfg acc.1 s
        if 0 < td then
          let nh := max 0 (s.initial_health - td)
          if 1/1000 < |nh - s.health| then
            (updateNamed acc.1 n (fun t => { t with health := nh }), true)
          else acc
        else acc

/-- One full sweep of `propagate_health` over all services in
dictionary order, starting with `changed = False` (lines 195-211). -/
def sweep (cfg : Config) (svs : List Service) : List Service × Bool :=
  (svs.map (fun s => s.name)).foldl (sweepStep cfg) (svs, false)

/-- The `for _ in range(len(...))` loop of `propagate_health`
(lines 194-214) with explicit remaining-iteration fuel; also counts the
sweeps actually performed.  A sweep that changes nothing breaks the
loop after being counted. -/
def propagateLoop (cfg : Config) : Nat → List Service → List Service × Nat
  | 0, svs => (svs, 0)
  | fuel+1, svs =>
      let r := sweep cfg svs
      if r.2 then
        let r2 := propagateLoop cfg fuel r.1
        (r2.1, r2.2 + 1)
      else (r.1, 1)

/-- `propagate_health` (lines 190-214): at most `len(services)` sweeps. -/
def propagate_health (cfg : Config) (svs : List Service) : List Service :=
  (propagateLoop cfg svs.length svs).1

/-- Number of sweeps `propagate_health` actually performs. -/
def propagateSweepCount (cfg : Config) (svs : List Service) : Nat :=
  (propagateLoop cfg svs.length svs).2

/-- The upstream ripple bump written to one dependent
(lines 255-263): health rises halfway towards `heal_to` (clamped at
1.0); when the result reaches the threshold the failure flags clear. -/
def rippleWrite (cfg : Config) (nh : ℚ) (t : Service) : Service :=
  { t with health := nh,
           is_failed := if cfg.threshold ≤ nh then false else t.is_failed,
           recovery_timer := if cfg.threshold ≤ nh then -1 else t.recovery_timer }

/-- `all_deps_healthy` (lines 249-253): every dependency that exists in
the graph is at or above threshold; dangling names are skipped. -/
def depsHealthy (cfg : Config) (svs : List Service) (dependent : Service) : Bool :=
  dependent.depends_on.all (fun dn =>
    match findService svs dn with
    | some dep => decide (cfg.threshold ≤ dep.health)
    | none => true)

/-- Examination of one dependent during the ripple walk
(lines 248-263).  Returns the new state and, when the dependent was
bumped, the `(name, old_health, new_health)` entry appended to
`recovered`. -/
def rippleStep (cfg : Config) (svs : List Service) (d : String) :
    List Service × Option (String × ℚ × ℚ) :=
  match findService svs d with
  | none => (svs, none)
  | some dependent =>
      if depsHealthy cfg svs dependent && decide (dependent.health < cfg.heal_to) then
        (updateNamed svs d (rippleWrite cfg
          (min 1 (dependent.health + (cfg.heal_to - dependent.health) * (1/2)))),
         some (d, dependent.health,
           min 1 (dependent.health + (cfg.heal_to - dependent.health) * (1/2))))
      else (svs, none)

/-- The `for dependent_name in rev_adj[current]` loop of
`propagate_recovery` (lines 244-266): an unvisited dependent is
examined; only when it actually receives a bump is it recorded,
marked visited and enqueued.  State is `(queue, visited, services,
recovered)`. -/
def processDeps (cfg : Config) :
    List String → List String → List String → List Service →
    List (String × ℚ × ℚ) →
    List String × List String × List Service × List (String × ℚ × ℚ)
  | [], q, v, svs, rec => (q, v, svs, rec)
  | d :: ds, q, v, svs, rec =>
      if d ∈ v then processDeps cfg ds q v svs rec
      else
        match rippleStep cfg svs d with
        | (svs1, some entry) =>
            processDeps cfg ds (q ++ [d]) (v ++ [d]) svs1 (rec ++ [entry])
        | (svs1, none) => processDeps cfg ds q v svs1 rec

/-- The `while queue` loop of `propagate_recovery` (lines 242-266),
with fuel.  Each dequeue consumes one fuel unit; since every enqueue
adds a fresh name to `visited` and names come from the service list,
`len(services) + 1` fuel always suffices. -/
def recoveryLoop (cfg : Config) :
    Nat → List String → List String → List Service → List (String × ℚ × ℚ) →
    List Service × List (String × ℚ × ℚ)
  | 0, _, _, svs, rec => (svs, rec)
  | _+1, [], _, svs, rec => (svs, rec)
  | fuel+1, current :: q, v, svs, rec =>
      let r := processDeps cfg (revAdj svs current) q v svs rec
      recoveryLoop cfg fuel r.1 r.2.1 r.2.2.1 r.2.2.2

/-- `propagate_recovery` (lines 236-271): breadth-first ripple walk
from the healed service, returning the final state together with the
`recovered` ledger of bumps. -/
def propagate_recovery_full (cfg : Config) (svs : List Service) (start : String) :
    List Service × List (String × ℚ × ℚ) :=
  recoveryLoop cfg (svs.length + 1) [start] [start] svs []

/-- `propagate_recovery`, state component only. -/
def propagate_recovery (cfg : Config) (svs : List Service) (start : String) :
    List Service :=
  (propagate_recovery_full cfg svs start).1

/-- Spec-described variant of the dependent loop, for comparison with
the code.  The spec states that the "traversal continues through the
visited dependent regardless of whether it received a bump": here every
first-encountered dependent is marked visited and enqueued, bump or
not, while the bump condition itself is unchanged. -/
def specWalkProcessDeps (cfg : Config) :
    List String → List String → List String → List Service →
    List (String × ℚ × ℚ) →
    List String × List String × List Service × List (String × ℚ × ℚ)
  | [], q, v, svs, rec => (q, v, svs, rec)
  | d :: ds, q, v, svs, rec =>
      if d ∈ v then specWalkProcessDeps cfg ds q v svs rec
      else
        match rippleStep cfg svs d with
        | (svs1, some entry) =>
            specWalkProcessDeps cfg ds (q ++ [d]) (v ++ [d]) svs1 (rec ++ [entry])
        | (svs1, none) => specWalkProcessDeps cfg ds (q ++ [d]) (v ++ [d]) svs1 rec

/-- Spec-described variant of the ripple walk loop (see
`specWalkProcessDeps`). -/
def specWalkLoop (cfg : Config) :
    Nat → List String → List String → List Service → List (String × ℚ × ℚ) →
    List Service × List (String × ℚ × ℚ)
  | 0, _, _, svs, rec => (svs, rec)
  | _+1, [], _, svs, rec => (svs, rec)
  | fuel+1, current :: q, v, svs, rec =>
      let r := specWalkProcessDeps cfg (revAdj svs current) q v svs rec
      specWalkLoop cfg fuel r.1 r.2.1 r.2.2.1 r.2.2.2

/-- Spec-described variant of `propagate_recovery` (traversal continues
through non-bumped dependents), used to exhibit where the code differs. -/
def specWalkRecoveryFull (cfg : Config) (svs : List Service) (start : String) :
    List Service × List (String × ℚ × ℚ) :=
  specWalkLoop cfg (svs.length + 1) [start] [start] svs []

/-- Timer decrement pass of `handle_recovery` (lines 222-224):
each failed service with a positive timer is decremented by one. -/
def tickTimers (svs : List Service) : List Service :=
  svs.map (fun s =>
    if s.is_failed && decide (0 < s.recovery_timer) then
      { s with recovery_timer := s.recovery_timer - 1 }
    else s)

/-- `services_to_heal` (lines 226-227): every service whose timer is
exactly 0 after the decrement pass, in dictionary order.  (The check
does not require `is_failed`.) -/
def servicesToHeal (svs : List Service) : List String :=
  (svs.filter (fun s => decide (s.recovery_timer = 0))).map (fun s => s.name)

/-- Healing one collected service (lines 229-234): health jumps to
`heal_to`, flags clear, then the upstream ripple walk runs. -/
def healOne (cfg : Config) (svs : List Service) (n : String) : List Service :=
  propagate_recovery cfg
    (updateNamed svs n (fun t =>
      { t with health := cfg.heal_to, is_failed := false, recovery_timer := -1 }))
    n

/-- `handle_recovery` (lines 216-234): a no-op when `cooldown` is not
configured; otherwise decrement timers, then heal every service whose
timer reached 0. -/
def handle_recovery (cfg : Config) (svs : List Service) : List Service :=
  match cfg.cooldown with
  | none => svs
  | some _ =>
      let svs1 := tickTimers svs
      (servicesToHeal svs1).foldl (healOne cfg) svs1

/-- Root test of `perform_rca` (lines 275-282): a failed service is a
root iff none of its dependencies that exist in the graph is failed. -/
def isRootIn (svs : List Service) (s : Service) : Bool :=
  s.depends_on.all (fun dn =>
    match findService svs dn with
    | some dep => !dep.is_failed
    | none => true)

/-- `min(failed_services, key=lambda s: s.health)` (line 285): the
first service attaining the minimal health. -/
def minByHealth : List Service → Option Service
  | [] => none
  | s :: rest =>
      some (rest.foldl (fun m t => if t.health < m.health then t else m) s)

/-- The failure set F (line 157): services strictly below threshold,
in dictionary order. -/
def failedServices (cfg : Config) (svs : List Service) : List Service :=
  svs.filter (fun s => decide (s.health < cfg.threshold))

/-- `root_causes` with the lowest-health fallback (lines 274-286). -/
def rcaRoots (svs : List Service) (failed : List Service) : List Service :=
  let r := failed.filter (isRootIn svs)
  if r.isEmpty then (minByHealth failed).toList else r

/-- The `while q` loop of `get_blast_radius` (lines 310-317), with
fuel.  Accumulator is `(queue, visited, impacted)`. -/
def blastLoop (svs : List Service) :
    Nat → List String → List String → List String → List String
  | 0, _, _, imp => imp
  | _+1, [], _, imp => imp
  | fuel+1, curr :: q, v, imp =>
      let step := (revAdj svs curr).foldl
        (fun (acc : List String × List String × List String) nb =>
          if nb ∈ acc.2.1 then acc
          else (acc.1 ++ [nb], acc.2.1 ++ [nb], acc.2.2 ++ [nb]))
        (q, v, imp)
      blastLoop svs fuel step.1 step.2.1 step.2.2

/-- `get_blast_radius` (lines 309-318): everything transitively
dependent on `start`, excluding `start`, in breadth-first discovery
order. -/
def get_blast_radius (svs : List Service) (start : String) : List String :=
  blastLoop svs (svs.length + 1) [start] [start] []

/-- `len(blast_radii[s.name])`, the sort key of line 293. -/
def radiusLen (svs : List Service) (s : Service) : Nat :=
  (get_blast_radius svs s.name).length

/-- Insertion into a descending-by-key sorted list that places the new
element before elements of equal key that came later in the original
list (insertion proceeds from the right). -/
def insertDescF (k : Service → Nat) (x : Service) : List Service → List Service
  | [] => [x]
  | y :: ys => if k x < k y then y :: insertDescF k x ys else x :: y :: ys

/-- `sorted(roots, key=lambda s: len(radius), reverse=True)` (line 293):
a stable descending sort by key.  Python's sort is stable, and any two
stable sorts for the same key agree, so this insertion sort computes
the same list Timsort does. -/
def sortDescBy (k : Service → Nat) : List Service → List Service
  | [] => []
  | x :: xs => insertDescF k x (sortDescBy k xs)

/-- First element of a list attaining the maximal key (earlier elements
win ties): the specification of `sorted(..., reverse=True)[0]`. -/
def firstMaxBy (k : Service → Nat) : List Service → Option Service
  | [] => none
  | x :: xs =>
      match firstMaxBy k xs with
      | none => some x
      | some m => if k x < k m then some m else some x

/-- `sorted_roots` of line 293. -/
def rcaSorted (svs : List Service) (failed : List Service) : List Service :=
  sortDescBy (radiusLen svs) (rcaRoots svs failed)

/-- `sorted_roots[0]`, the remediation suggestion (lines 297-298). -/
def rcaPriority (svs : List Service) (failed : List Service) : Option Service :=
  (rcaSorted svs failed).head?

/-- The incident record appended by `perform_rca` (lines 301-307).
`enum` models `list(radius)`: Python's conversion of an unordered set
of strings to a list, whose element order depends on the per-process
hash seed; any permutation of the set is a possible outcome. -/
def mkIncident (enum : List String → List String) (svs : List Service)
    (failed : List Service) (tick : Nat) : Option Incident :=
  let roots := rcaRoots svs failed
  match (sortDescBy (radiusLen svs) roots).head? with
  | none => none
  | some top =>
      some { tick := tick,
             roots := roots.map (fun r => r.name),
             impacted := roots.map (fun r => (r.name, enum (get_blast_radius svs r.name))),
             priority := top.name }

/-- The newly-failed transition of `run_tick` (lines 164-175): every
below-threshold service not yet marked failed gets its flags set, with
`recovery_timer = config.get('cooldown', -1)`. -/
def classifyFailures (cfg : Config) (tick : Nat) (svs : List Service) : List Service :=
  svs.map (fun s =>
    if decide (s.health < cfg.threshold) && !s.is_failed then
      { s with is_failed := true, failed_at_tick := (tick : Int),
               recovery_timer := cfg.cooldown.getD (-1) }
    else s)

/-- `min(services.values(), ...)` on line 160: first service of minimal
health, `none` when there are no services (Python raises ValueError). -/
def minHealthService : List Service → Option Service
  | [] => none
  | s :: rest =>
      some (rest.foldl (fun m t => if t.health < m.health then t else m) s)

/-- The exception `min` raises on an empty sequence. -/
def minEmptyMsg : String := "ValueError: min() arg is an empty sequence"

/-- `run_tick` (lines 133-178): snapshot, glitch, recovery,
propagation, classification, newly-failed transition and RCA.  The
history ledger and log lines are omitted; `choice`/`delta` are the
tick's RNG draws and `enum` the set-enumeration order (see
`mkIncident`).  The unguarded `min` of line 160 surfaces as an
`Except.error`. -/
def run_tick (cfg : Config) (choice : Nat) (delta : ℚ)
    (enum : List String → List String) (st : SimState) : Except String SimState :=
  let tick := st.tick + 1
  let svs0 := snapshot st.services
  let g := apply_glitch cfg choice delta svs0
  let events1 := match g.2 with
    | some (n, oldh, newh) => st.events ++ [Event.glitch tick n oldh newh]
    | none => st.events
  let svs2 := handle_recovery cfg g.1
  let svs3 := propagate_health cfg svs2
  let failed := failedServices cfg svs3
  if failed.isEmpty then
    match minHealthService svs3 with
    | none => Except.error minEmptyMsg
    | some _ =>
        Except.ok { services := svs3, tick := tick, events := events1,
                    incidents := st.incidents }
  else
    let newly := failed.filter (fun s => !s.is_failed)
    let svs4 := classifyFailures cfg tick svs3
    let events2 := events1 ++ newly.map (fun s => Event.failure tick s.name s.health)
    let incidents2 :=
      if newly.isEmpty then st.incidents
      else
        match mkIncident enum svs4 (failedServices cfg svs4) tick with
        | some inc => st.incidents ++ [inc]
        | none => st.incidents
    Except.ok { services := svs4, tick := tick, events := events2,
                incidents := incidents2 }

/-- The tick loop of `run` (lines 126-128): `rnd` supplies each tick's
RNG draws; the first tick that raises aborts the run, as in Python. -/
def runTicks (cfg : Config) (rnd : Nat → Nat × ℚ)
    (enum : List String → List String) : Nat → SimState → Except String SimState
  | 0, st => Except.ok st
  | n+1, st =>
      match run_tick cfg (rnd st.tick).1 (rnd st.tick).2 enum st with
      | Except.error e => Except.error e
      | Except.ok st2 => runTicks cfg rnd enum n st2

/-- The `failed_deps` comprehension of `query_why_failing` (line 336):
`self.graph.services[d]` is an unguarded dictionary access, so a
dependency name absent from the graph raises `KeyError(d)`. -/
def failedDepsOf (cfg : Config) (svs : List Service) :
    List String → Except String (List String)
  | [] => Except.ok []
  | d :: ds =>
      match findService svs d with
      | none => Except.error d
      | some dep =>
          match failedDepsOf cfg svs ds with
          | Except.error e => Except.error e
          | Except.ok rest =>
              Except.ok (if dep.health < cfg.threshold then d :: rest else rest)

/-- Outcome of `query_why_failing`, abstracting the rendered text. -/
inductive WhyResult where
  | notFound (name : String)
  | healthy (name : String) (health : ℚ)
  | independent (name : String) (lastGlitch : Option Event)
  | cascade (name : String) (failedDeps : List String)
deriving DecidableEq

/-- The most recent glitch event for a service (lines 344-346). -/
def lastGlitchFor (events : List Event) (n : String) : Option Event :=
  (events.filter (fun e =>
    match e with
    | Event.glitch _ s _ _ => s == n
    | _ => false)).getLast?

/-- `QueryHandler.query_why_failing` (lines 326-360), up to the rendered
strings: healthy / independent / cascade classification, with the
`KeyError` of line 336 surfacing as an `Except.error` naming the
dangling dependency. -/
def query_why_failing (cfg : Config) (svs : List Service) (events : List Event)
    (n : String) : Except String WhyResult :=
  match findService svs n with
  | none => Except.ok (WhyResult.notFound n)
  | some s =>
      if cfg.threshold ≤ s.health then Except.ok (WhyResult.healthy n s.health)
      else
        match failedDepsOf cfg svs s.depends_on with
        | Except.error e => Except.error e
        | Except.ok [] => Except.ok (WhyResult.independent n (lastGlitchFor events n))
        | Except.ok fds => Except.ok (WhyResult.cascade n fds)

/-- The error payload of an `Except`, if any. -/
def exceptError? {e a : Type} : Except e a → Option e
  | Except.error x => some x
  | Except.ok _ => none

/-- All health fields (current and baseline) lie in the unit interval. -/
abbrev healthsIn01 (svs : List Service) : Prop :=
  ∀ s ∈ svs, 0 ≤ s.health ∧ s.health ≤ 1 ∧ 0 ≤ s.initial_health ∧ s.initial_health ≤ 1

/-- Per-name relation between the state at entry of a propagation sweep
and any intermediate state of that sweep: every service keeps every
field except possibly `health`, and a rewritten health lies between 0
and `max 0 H0` where `H0` is the service's tick baseline
`initial_health`. -/
def SweepEvolved (orig cur : List Service) : Prop :=
  ∀ n, (findService orig n = none ∧ findService cur n = none) ∨
       ∃ s h, findService orig n = some s ∧
              findService cur n = some { s with health := h } ∧
              (h = s.health ∨ (0 ≤ h ∧ h ≤ max 0 s.initial_health))

/-- Invariant of the ripple walk relating the visited set and the
recovered ledger: recovered names are visited, pairwise distinct, and
never the start node (which is visited from the outset). -/
def RecInv (start : String) (v : List String)
    (rec : List (String × ℚ × ℚ)) : Prop :=
  (∀ x ∈ rec.map Prod.fst, x ∈ v) ∧ (rec.map Prod.fst).Nodup ∧ start ∈ v ∧
  ∀ x ∈ rec.map Prod.fst, x ≠ start

/-- The service named `n` currently has the post-heal field values:
health `heal_to`, failure flag clear, timer inactive. -/
def HealedAt (cfg : Config) (n : String) (svs : List Service) : Prop :=
  ∃ s2, findService svs n = some s2 ∧ s2.health = cfg.heal_to ∧
    s2.is_failed = false ∧ s2.recovery_timer = -1

/-- The record of S in `svsC3` before the sweep. -/
def svcS3pre : Service :=
  { name := "S", depends_on := ["D"], health := 1/2, initial_health := 1,
    is_failed := false, failed_at_tick := -1, recovery_timer := -1 }

/-- The record of S after one sweep of `svsC3`: health rewritten to
`max 0 (1 - 1/100) = 99/100`. -/
def svcS3post : Service :=
  { name := "S", depends_on := ["D"], health := 99/100, initial_health := 1,
    is_failed := false, failed_at_tick := -1, recovery_timer := -1 }

/-! Concrete instances used by the counterexamples and witnesses. -/

/-- Configuration for the C1 witness: cooldown enabled, `heal_to` in
the unit interval. -/
def cfgC1 : Config :=
  { threshold := 7/10, alpha := 1/10, heal_to := 9/10, cooldown := some 1 }

/-- Two services with all health fields in `[0,1]`: X failed and due to
heal, Y depending on X. -/
def svsC1 : List Service :=
  [ { name := "X", depends_on := [], health := 1/2, initial_health := 1/2,
      is_failed := true, failed_at_tick := 2, recovery_timer := 1 },
    { name := "Y", depends_on := ["X"], health := 1, initial_health := 1,
      is_failed := false, failed_at_tick := -1, recovery_timer := -1 } ]

/-- Configuration for the C3 counterexample. -/
def cfgC3 : Config :=
  { threshold := 7/10, alpha := 1/10, heal_to := 9/10, cooldown := none }

/-- Mid-tick state for the C3 counterexample: D degraded below
threshold in an earlier tick; S was snapshotted at health 1 and then
glitched down to 1/2 this tick (delta 1/2 lies in the uniform(0.2,0.5)
range), so S's baseline `initial_health` is 1 while its current health
is 1/2. -/
def svsC3 : List Service :=
  [ { name := "D", depends_on := [], health := 3/5, initial_health := 3/5,
      is_failed := true, failed_at_tick := 1, recovery_timer := -1 },
    { name := "S", depends_on := ["D"], health := 1/2, initial_health := 1,
      is_failed := false, failed_at_tick := -1, recovery_timer := -1 } ]

/-- Configuration for the C4 counterexample. -/
def cfgC4 : Config :=
  { threshold := 7/10, alpha := 1/10, heal_to := 9/10, cooldown := some 2 }

/-- State at the moment `propagate_recovery("A")` is invoked: A was
just healed to 9/10; B depends on A and on the still-failed Z, so B
gets no bump; C depends only on the healthy B and would qualify for a
bump if the walk continued through B. -/
def svsC4 : List Service :=
  [ { name := "A", depends_on := [], health := 9/10, initial_health := 1/2,
      is_failed := false, failed_at_tick := 3, recovery_timer := -1 },
    { name := "Z", depends_on := [], health := 1/10, initial_health := 1/10,
      is_failed := true, failed_at_tick := 2, recovery_timer := 1 },
    { name := "B", depends_on := ["A", "Z"], health := 3/4, initial_health := 3/4,
      is_failed := false, failed_at_tick := -1, recovery_timer := -1 },
    { name := "C", depends_on := ["B"], health := 1/2, initial_health := 1/2,
      is_failed := true, failed_at_tick := 2, recovery_timer := 1 } ]

/-- Configuration for the C5 counterexample: cooldown 3 ticks. -/
def cfgC5 : Config :=
  { threshold := 7/10, alpha := 1/10, heal_to := 9/10, cooldown := some 3 }

/-- A failed service two ticks away from its heal (it failed with timer
3 and one recovery pass has already run). -/
def svsC5 : List Service :=
  [ { name := "S", depends_on := [], health := 3/10, initial_health := 3/10,
      is_failed := true, failed_at_tick := 4, recovery_timer := 2 } ]

/-- State for the C5 witness: the only failed service has an inactive
timer, so a recovery pass leaves everything untouched. -/
def svsC5w : List Service :=
  [ { name := "S", depends_on := [], health := 3/10, initial_health := 3/10,
      is_failed := true, failed_at_tick := 4, recovery_timer := -1 } ]

/-- Configuration for the C6 counterexample (alpha 0 keeps dependents
undegraded, isolating the incident-ordering question). -/
def cfgC6 : Config :=
  { threshold := 7/10, alpha := 0, heal_to := 9/10, cooldown := none }

/-- A failed root A with two healthy dependents B and C: A's blast
radius is the two-element set that `list(...)` enumerates. -/
def svsC6 : List Service :=
  [ { name := "A", depends_on := [], health := 1/2, initial_health := 1,
      is_failed := true, failed_at_tick := 1, recovery_timer := -1 },
    { name := "B", depends_on := ["A"], health := 1, initial_health := 1,
      is_failed := false, failed_at_tick := -1, recovery_timer := -1 },
    { name := "C", depends_on := ["A"], health := 1, initial_health := 1,
      is_failed := false, failed_at_tick := -1, recovery_timer := -1 } ]

/-- Configuration for the C7 witness. -/
def cfgC7 : Config :=
  { threshold := 7/10, alpha := 1, heal_to := 9/10, cooldown := none }

/-- Failure set with a clear root: A failed with no dependencies,
B failed because of A, C healthy and dependent on A. -/
def svsC7 : List Service :=
  [ { name := "A", depends_on := [], health := 1/2, initial_health := 1,
      is_failed := true, failed_at_tick := 2, recovery_timer := -1 },
    { name := "B", depends_on := ["A"], health := 3/5, initial_health := 1,
      is_failed := true, failed_at_tick := 2, recovery_timer := -1 },
    { name := "C", depends_on := ["A"], health := 1, initial_health := 1,
      is_failed := false, failed_at_tick := -1, recovery_timer := -1 } ]

/-- Configuration for the C8 theorem. -/
def cfgC8 : Config :=
  { threshold := 7/10, alpha := 1/10, heal_to := 9/10, cooldown := none }

/-- A failing service whose dependency list names a service absent from
the graph. -/
def svsC8 : List Service :=
  [ { name := "X", depends_on := ["ghost"], health := 3/10, initial_health := 3/10,
      is_failed := true, failed_at_tick := 2, recovery_timer := -1 } ]

/-- Configuration for the C9 witness. -/
def cfgC9 : Config :=
  { threshold := 7/10, alpha := 1/10, heal_to := 9/10, cooldown := none }

/-- A single dependency-free healthy service: the first sweep changes
nothing, so propagation stops after one sweep. -/
def svsC9 : List Service :=
  [ { name := "X", depends_on := [], health := 1, initial_health := 1,
      is_failed := false, failed_at_tick := -1, recovery_timer := -1 } ]

/-- Configuration for the C10 witness: cooldown 0. -/
def cfgC10 : Config :=
  { threshold := 7/10, alpha := 1/10, heal_to := 9/10, cooldown := some 0 }

/-- A service that crossed the threshold this tick and is not yet
marked failed (state right before the newly-failed transition). -/
def svsC10a : List Service :=
  [ { name := "X", depends_on := [], health := 1/2, initial_health := 1,
      is_failed := false, failed_at_tick := -1, recovery_timer := -1 } ]

/-- A service that failed last tick under cooldown 0: timer already 0
when the next recovery phase starts. -/
def svsC10b : List Service :=
  [ { name := "X", depends_on := [], health := 1/2, initial_health := 1/2,
      is_failed := true, failed_at_tick := 7, recovery_timer := 0 } ]

/-- The single record of `svsC10a`. -/
def svcC10a : Service :=
  { name := "X", depends_on := [], health := 1/2, initial_health := 1,
    is_failed := false, failed_at_tick := -1, recovery_timer := -1 }

/-- The single record of `svsC10b`. -/
def svcC10b : Service :=
  { name := "X", depends_on := [], health := 1/2, initial_health := 1/2,
    is_failed := true, failed_at_tick := 7, recovery_timer := 0 }

/-! General-purpose helper lemmas. -/

/-- A fold preserves any invariant its step preserves. -/
theorem foldlInv {α β : Type} {f : α → β → α} {P : α → Prop}
    (l : List β) (init : α) (h0 : P init)
    (hstep : ∀ acc b, P acc → P (f acc b)) : P (l.foldl f init) := by
  induction l generalizing init with
  | nil => exact h0
  | cons b bs ih => exact ih _ (hstep _ _ h0)

/-- A map whose function fixes every element of the list is the
identity on that list. -/
theorem mapEqSelf {α : Type} {l : List α} {f : α → α}
    (h : ∀ a ∈ l, f a = a) : l.map f = l := by
  induction l with
  | nil => rfl
  | cons x xs ih =>
      rw [List.map_cons, h x (List.mem_cons_self x xs),
        ih (fun a ha => h a (List.mem_cons_of_mem _ ha))]

/-- Lookup commutes with a name-preserving in-place mutation. -/
theorem findService_map (f : Service → Service) (hf : ∀ t, (f t).name = t.name)
    (svs : List Service) (n : String) :
    findService (svs.map f) n = (findService svs n).map f := by
  induction svs with
  | nil => rfl
  | cons s rest ih =>
      simp only [findService, List.map_cons, List.find?_cons] at ih ⊢
      rw [hf s]
      cases h : (s.name == n) <;> simp [h, ih]

/-! C2: run_tick on the empty graph. -/

/-- On an empty service list, `run_tick` reaches the all-healthy branch
and `min` over zero services raises. -/
theorem run_tick_empty (cfg : Config) (choice : Nat) (delta : ℚ)
    (enum : List String → List String) (tick : Nat) (ev : List Event)
    (inc : List Incident) :
    run_tick cfg choice delta enum
      { services := [], tick := tick, events := ev, incidents := inc } =
      Except.error minEmptyMsg := by
  cases h : cfg.cooldown <;>
    simp [run_tick, snapshot, apply_glitch, glitchVictim, handle_recovery, h,
      tickTimers, servicesToHeal, propagate_health, propagateLoop,
      failedServices, minHealthService]

/-- C2: the claim says that on an empty graph the engine runs all
`ticks` ticks to completion; in the code the all-healthy branch of the
first tick evaluates `min(self.graph.services.values(), ...)` over an
empty sequence (line 160), which raises ValueError, so no run with at
least one tick completes. -/
theorem C2_theorem (cfg : Config) (rnd : Nat → Nat × ℚ)
    (enum : List String → List String) (n tick : Nat) (ev : List Event)
    (inc : List Incident) :
    runTicks cfg rnd enum (n + 1)
      { services := [], tick := tick, events := ev, incidents := inc } =
      Except.error minEmptyMsg := by
  have h := run_tick_empty cfg (rnd tick).1 (rnd tick).2 enum tick ev inc
  simp [runTicks, h]

/-! C1: unit-interval invariant. -/

unseal Rat.mul Rat.add Rat.sub Rat.inv in
/-- C1 (counterexample): `Service.__init__` stores the input health
unchanged, so an input health of 3/2 yields a node whose health is not
within `[0,1]` - construction does not clamp. -/
theorem C1_counterexample : ¬ ((Service.init "A" [] (3/2)).health ≤ 1) := by
  decide

/-! C3: sweep monotonicity. -/

unseal Rat.mul Rat.add Rat.sub Rat.inv in
/-- C3 (counterexample): a propagation sweep can increase a node's
health.  In `svsC3`, S was glitched this tick from its baseline 1 down
to 1/2; the sweep recomputes S from the baseline minus the small
contribution of D and writes 99/100 > 1/2.  So it is false that every
sweep only decreases or preserves every node's health. -/
theorem C3_counterexample :
    ¬ (∀ s2 ∈ (sweep cfgC3 svsC3).1, ∀ s ∈ svsC3,
        s.name = s2.name → s2.health ≤ s.health) := by
  decide

/-! C4: ripple-walk traversal. -/

unseal Rat.mul Rat.add Rat.sub Rat.inv in
/-- C4 (counterexample): the code's walk from the healed A examines B,
gives it no bump (B's dependency Z is failed) and does not continue
through it, so the bump-eligible C behind B is never visited: the code
records no recovery and C keeps health 1/2.  The spec-described walk
(`specWalkRecoveryFull`), which continues through a first-encountered
dependent whether or not it was bumped, does reach C and bumps it to
7/10.  This refutes the claim that the traversal continues through a
first-encountered dependent regardless of the bump. -/
theorem C4_counterexample :
    (propagate_recovery_full cfgC4 svsC4 "A").2 = [] ∧
    (findService (propagate_recovery cfgC4 svsC4 "A") "C").map Service.health =
      some (1/2) ∧
    (specWalkRecoveryFull cfgC4 svsC4 "A").2 = [("C", 1/2, 7/10)] := by
  refine ⟨by decide, by decide, by decide⟩

/-! C5: recovery idempotence. -/

/-- A recovery pass over a state whose timers are all inactive changes
nothing: no timer is positive (no decrement) and none is 0 (no heal). -/
theorem handle_recovery_fixed (cfg : Config) (svs : List Service)
    (h : ∀ s ∈ svs, s.recovery_timer < 0) : handle_recovery cfg svs = svs := by
  cases hc : cfg.cooldown with
  | none => simp [handle_recovery, hc]
  | some c =>
      have ht : tickTimers svs = svs := by
        unfold tickTimers
        refine mapEqSelf (fun s hs => ?_)
        have := h s hs
        have hnot : (s.is_failed && decide (0 < s.recovery_timer)) = false := by
          have : ¬ (0 < s.recovery_timer) := by omega
          simp [this]
        simp [hnot]
      have hs : servicesToHeal svs = [] := by
        unfold servicesToHeal
        have : svs.filter (fun s => decide (s.recovery_timer = 0)) = [] := by
          refine List.filter_eq_nil_iff.mpr (fun s hs => ?_)
          have := h s hs
          simp only [decide_eq_true_eq]
          omega
        rw [this]
        rfl
      simp [handle_recovery, hc, ht, hs]

unseal Rat.mul Rat.add Rat.sub Rat.inv in
/-- C5 (counterexample): with cooldown 3 and a failed service whose
timer is 2, the first pass decrements the timer to 1 and the second
pass decrements it to 0 and heals, so two consecutive recovery passes
are not equivalent to one. -/
theorem C5_counterexample :
    handle_recovery cfgC5 (handle_recovery cfgC5 svsC5) ≠
      handle_recovery cfgC5 svsC5 := by
  decide

/-- C5 (amended): running the recovery scheduler twice has no
additional effect provided the first run leaves every recovery timer
inactive (negative) - which the parenthetical "timers already -1" of
the spec assumes but which fails whenever a timer is still counting
down. -/
theorem C5_theorem (cfg : Config) (svs : List Service)
    (h : ∀ s ∈ handle_recovery cfg svs, s.recovery_timer < 0) :
    handle_recovery cfg (handle_recovery cfg svs) = handle_recovery cfg svs :=
  handle_recovery_fixed cfg (handle_recovery cfg svs) h

unseal Rat.mul Rat.add Rat.sub Rat.inv in
/-- Witness for `C5_theorem` at a concrete state. -/
theorem C5_witness :
    (∀ s ∈ handle_recovery cfgC5 svsC5w, s.recovery_timer < 0) ∧
    handle_recovery cfgC5 (handle_recovery cfgC5 svsC5w) =
      handle_recovery cfgC5 svsC5w :=
  ⟨by decide, C5_theorem cfgC5 svsC5w (by decide)⟩

/-! C6: determinism of the ledgers. -/

unseal Rat.mul Rat.add Rat.sub Rat.inv in
/-- C6: the incident ledger's `impacted` lists come from `list(radius)`
where `radius` is a Python set of strings (line 305); the enumeration
order of such a set depends on the per-process hash seed.  Both
enumerations below are permutations of the radius `{B, C}` - hence
possible outcomes of `list(...)` in some process - yet they give
different incident records, so two runs with identical topology,
config and seed need not produce identical incident ledgers. -/
theorem C6_theorem :
    (List.reverse ["B", "C"]).Perm ["B", "C"] ∧
    mkIncident (fun l => l) svsC6 (failedServices cfgC6 svsC6) 3 ≠
      mkIncident (fun l => List.reverse l) svsC6 (failedServices cfgC6 svsC6) 3 := by
  refine ⟨by decide, by decide⟩

/-! C8: dangling dependency names. -/

unseal Rat.mul Rat.add Rat.sub Rat.inv in
/-- C8: `query_why_failing` on the failing service X, whose dependency
list contains the dangling name "ghost", evaluates the unguarded
dictionary access `self.graph.services['ghost']` (line 336) and raises
`KeyError('ghost')` instead of ignoring the dangling name. -/
theorem C8_theorem :
    exceptError? (query_why_failing cfgC8 svsC8 [] "X") = some "ghost" := by
  decide

/-! C9: propagation sweep bound. -/

/-- The propagation loop never performs more sweeps than its fuel. -/
theorem propagateLoop_count_le (cfg : Config) :
    ∀ (fuel : Nat) (svs : List Service), (propagateLoop cfg fuel svs).2 ≤ fuel := by
  intro fuel
  induction fuel with
  | zero => intro svs; simp [propagateLoop]
  | succ n ih =>
      intro svs
      simp only [propagateLoop]
      cases h : (sweep cfg svs).2 with
      | false => simp [h]
      | true =>
          simp only [h, if_true]
          exact Nat.succ_le_succ (ih _)

/-- C9: `propagate_health` performs at most `len(services)` sweeps
(the `for _ in range(len(...))` bound), and a sweep that changes no
node's health by more than 1e-3 ends the loop immediately, whatever
fuel remains - in particular the loop terminates on cyclic graphs. -/
theorem C9_theorem (cfg : Config) (svs : List Service) :
    propagateSweepCount cfg svs ≤ svs.length ∧
    ∀ fuel : Nat, (sweep cfg svs).2 = false →
      propagateLoop cfg (fuel + 1) svs = ((sweep cfg svs).1, 1) := by
  constructor
  · exact propagateLoop_count_le cfg svs.length svs
  · intro fuel h
    simp [propagateLoop, h]

unseal Rat.mul Rat.add Rat.sub Rat.inv in
/-- Witness for `C9_theorem`: on a single dependency-free service the
first sweep changes nothing and the loop stops after one sweep. -/
theorem C9_witness :
    (sweep cfgC9 svsC9).2 = false ∧
    propagateLoop cfgC9 1 svsC9 = ((sweep cfgC9 svsC9).1, 1) ∧
    propagateSweepCount cfgC9 svsC9 ≤ svsC9.length :=
  ⟨by decide, (C9_theorem cfgC9 svsC9).2 0 (by decide), (C9_theorem cfgC9 svsC9).1⟩

/-! Sweep evolution: machinery for C3 (and reused by C1). -/

/-- A state is sweep-evolved from itself. -/
theorem sweepEvolved_refl (svs : List Service) : SweepEvolved svs svs := by
  intro n
  cases h : findService svs n with
  | none => exact Or.inl ⟨rfl, rfl⟩
  | some s => exact Or.inr ⟨s, s.health, rfl, rfl, Or.inl rfl⟩

/-- Rewriting one service's health to a value in `[0, max 0 H0]`
preserves the sweep-evolution relation. -/
theorem sweepEvolved_update (orig cur : List Service) (n : String) (sc : Service)
    (hfc : findService cur n = some sc) (h : SweepEvolved orig cur) (nh : ℚ)
    (h0 : 0 ≤ nh) (h1 : nh ≤ max 0 sc.initial_health) :
    SweepEvolved orig (updateNamed cur n (fun t => { t with health := nh })) := by
  intro m
  have hmap : findService (updateNamed cur n (fun t => { t with health := nh })) m =
      (findService cur m).map (fun t => if t.name == n then { t with health := nh } else t) := by
    unfold updateNamed
    exact findService_map _ (fun t => by by_cases hb : t.name == n <;> simp [hb]) cur m
  rcases h m with ⟨ho, hc⟩ | ⟨s, hh, ho, hc, hd⟩
  · exact Or.inl ⟨ho, by rw [hmap, hc]; rfl⟩
  · by_cases hb : s.name == n
    · -- the rewritten service: the record found at m and at n coincide
      have hsm : s.name = m := by
        have := List.find?_some ho
        simpa using this
      have hmn : m = n := by
        have hn : s.name = n := beq_iff_eq.mp hb
        rw [← hsm, hn]
      subst hmn
      have hsc : sc = { s with health := hh } := by
        rw [hfc] at hc
        exact Option.some_injective _ hc
      refine Or.inr ⟨s, nh, ho, ?_, Or.inr ⟨h0, ?_⟩⟩
      · rw [hmap, hc]
        simp [hb]
        intro hcon
        exact absurd (beq_iff_eq.mp hb) hcon
      · rw [hsc] at h1
        simpa using h1
    · refine Or.inr ⟨s, hh, ho, ?_, hd⟩
      rw [hmap, hc]
      simp [hb]
      intro hcon
      exact absurd hcon (by simpa using hb)

/-- One step of the sweep fold preserves the sweep-evolution relation. -/
theorem sweepStep_evolved (cfg : Config) (orig : List Service)
    (acc : List Service × Bool) (n : String)
    (h : SweepEvolved orig acc.1) : SweepEvolved orig (sweepStep cfg acc n).1 := by
  unfold sweepStep
  cases hf : findService acc.1 n with
  | none => exact h
  | some s =>
      by_cases hd : s.depends_on.isEmpty
      · simp only [hd, if_true]
        exact h
      · simp only [hd, if_false]
        by_cases h0 : 0 < totalDegradation cfg acc.1 s
        · by_cases hc : 1/1000 < |max 0 (s.initial_health - totalDegradation cfg acc.1 s) - s.health|
          · simp only [h0, hc, if_true]
            refine sweepEvolved_update orig acc.1 n s hf h _ (le_max_left _ _) ?_
            exact max_le_max le_rfl (sub_le_self _ (le_of_lt h0))
          · simp only [h0, hc, if_true, if_false]
            exact h
        · simp only [h0, if_false]
          exact h

/-- The whole sweep only evolves the entry state: every service keeps
all fields but health, and any rewritten health lies in `[0, max 0 H0]`. -/
theorem sweep_evolved (cfg : Config) (svs : List Service) :
    SweepEvolved svs (sweep cfg svs).1 := by
  unfold sweep
  exact foldlInv (P := fun (acc : List Service × Bool) => SweepEvolved svs acc.1)
    _ _ (sweepEvolved_refl svs) (fun acc b hacc => sweepStep_evolved cfg svs acc b hacc)

/-- C3 (amended): a propagation sweep preserves every service's
baseline `initial_health`, and either leaves its health unchanged or
rewrites it to a value in `[0, max 0 H0]` - in particular never above
`max 0 H0`.  A sweep may therefore increase a node's health (when the
current health is below the baseline, e.g. after a same-tick glitch,
see `C3_counterexample`), so "only decreases or preserves" is false;
what holds is this baseline bound. -/
theorem C3_theorem (cfg : Config) (svs : List Service) (n : String) (s s2 : Service)
    (ho : findService svs n = some s)
    (hc : findService (sweep cfg svs).1 n = some s2) :
    s2.initial_health = s.initial_health ∧
    (s2.health = s.health ∨ (0 ≤ s2.health ∧ s2.health ≤ max 0 s.initial_health)) := by
  rcases sweep_evolved cfg svs n with ⟨h1, _⟩ | ⟨t, hh, ht1, ht2, hdisj⟩
  · rw [h1] at ho
    cases ho
  · rw [ho] at ht1
    have ht : s = t := Option.some_injective _ ht1
    subst ht
    rw [hc] at ht2
    have hs2 : s2 = { s with health := hh } := Option.some_injective _ ht2
    subst hs2
    exact ⟨rfl, hdisj⟩

unseal Rat.mul Rat.add Rat.sub Rat.inv in
/-- Witness for `C3_theorem` on the C3 example: the sweep rewrites S
from health 1/2 to 99/100, which indeed stays within `[0, max 0 1]`. -/
theorem C3_witness :
    findService svsC3 "S" = some svcS3pre ∧
    findService (sweep cfgC3 svsC3).1 "S" = some svcS3post ∧
    (svcS3post.initial_health = svcS3pre.initial_health ∧
      (svcS3post.health = svcS3pre.health ∨
        (0 ≤ svcS3post.health ∧ svcS3post.health ≤ max 0 svcS3pre.initial_health))) :=
  ⟨by decide, by decide,
   C3_theorem cfgC3 svsC3 "S" svcS3pre svcS3post (by decide) (by decide)⟩

/-! Unit-interval preservation: machinery for C1. -/

/-- A named update whose new record keeps all health fields in `[0,1]`
preserves the unit-interval invariant. -/
theorem updateNamed_01 (svs : List Service) (n : String) (f : Service → Service)
    (h : healthsIn01 svs)
    (hf : ∀ t ∈ svs, 0 ≤ (f t).health ∧ (f t).health ≤ 1 ∧
          0 ≤ (f t).initial_health ∧ (f t).initial_health ≤ 1) :
    healthsIn01 (updateNamed svs n f) := by
  intro t ht
  unfold updateNamed at ht
  obtain ⟨u, hu, rfl⟩ := List.mem_map.mp ht
  by_cases hb : (u.name == n) = true
  · simpa [hb] using hf u hu
  · simpa [hb] using h u hu

/-- The glitch keeps all healths in the unit interval: the victim's new
health `max 0 (old - delta)` stays in `[0, old]` for `delta ≥ 0`. -/
theorem apply_glitch_01 (cfg : Config) (choice : Nat) (delta : ℚ)
    (svs : List Service) (h : healthsIn01 svs) (hd : 0 ≤ delta) :
    healthsIn01 (apply_glitch cfg choice delta svs).1 := by
  unfold apply_glitch
  cases hv : glitchVictim cfg choice svs with
  | none => exact h
  | some victim =>
      have hvmem : victim ∈ svs :=
        List.mem_of_mem_filter (List.getElem?_mem hv)
      have hv01 := h victim hvmem
      refine updateNamed_01 svs _ _ h (fun t ht => ?_)
      have ht01 := h t ht
      exact ⟨le_max_left _ _,
        max_le (by norm_num) (le_trans (sub_le_self _ hd) hv01.2.1),
        ht01.2.2.1, ht01.2.2.2⟩

/-- One body of the sweep fold keeps all healths in the unit interval:
a rewrite is `max 0 (H0 - td)` with `td > 0`, hence in `[0, H0]`. -/
theorem sweepStep_01 (cfg : Config) (acc : List Service × Bool) (n : String)
    (h : healthsIn01 acc.1) : healthsIn01 (sweepStep cfg acc n).1 := by
  unfold sweepStep
  cases hf : findService acc.1 n with
  | none => exact h
  | some s =>
      by_cases hd : s.depends_on.isEmpty
      · simp only [hd, if_true]
        exact h
      · simp only [hd, if_false]
        by_cases h0 : 0 < totalDegradation cfg acc.1 s
        · by_cases hc : 1/1000 < |max 0 (s.initial_health - totalDegradation cfg acc.1 s) - s.health|
          · simp only [h0, hc, if_true]
            have hs01 := h s (List.mem_of_find?_eq_some hf)
            refine updateNamed_01 _ _ _ h (fun t ht => ?_)
            have ht01 := h t ht
            exact ⟨le_max_left _ _,
              max_le (by norm_num)
                (le_trans (sub_le_self _ (le_of_lt h0)) hs01.2.2.2),
              ht01.2.2.1, ht01.2.2.2⟩
          · simp only [h0, hc, if_true, if_false]
            exact h
        · simp only [h0, if_false]
          exact h

/-- A full propagation sweep keeps all healths in the unit interval. -/
theorem sweep_01 (cfg : Config) (svs : List Service) (h : healthsIn01 svs) :
    healthsIn01 (sweep cfg svs).1 := by
  unfold sweep
  exact foldlInv (P := fun (acc : List Service × Bool) => healthsIn01 acc.1)
    _ _ h (fun acc b hacc => sweepStep_01 cfg acc b hacc)

/-- The whole propagation loop keeps all healths in the unit interval. -/
theorem propagateLoop_01 (cfg : Config) :
    ∀ (fuel : Nat) (svs : List Service), healthsIn01 svs →
      healthsIn01 (propagateLoop cfg fuel svs).1 := by
  intro fuel
  induction fuel with
  | zero =>
      intro svs h
      exact h
  | succ m ih =>
      intro svs h
      simp only [propagateLoop]
      cases hs : (sweep cfg svs).2 with
      | false =>
          rw [if_neg Bool.false_ne_true]
          exact sweep_01 cfg svs h
      | true =>
          rw [if_pos rfl]
          exact ih _ (sweep_01 cfg svs h)

/-- A ripple examination keeps all healths in the unit interval: a bump
writes `min 1 (h + (heal_to - h)/2)` with `h < heal_to` and `h ≥ 0`. -/
theorem rippleStep_01 (cfg : Config) (svs : List Service) (d : String)
    (h : healthsIn01 svs) : healthsIn01 (rippleStep cfg svs d).1 := by
  unfold rippleStep
  cases hf : findService svs d with
  | none => exact h
  | some dep =>
      have hd01 := h dep (List.mem_of_find?_eq_some hf)
      by_cases hg : (depsHealthy cfg svs dep && decide (dep.health < cfg.heal_to)) = true
      · simp only [hg, if_true]
        have hlt : dep.health < cfg.heal_to :=
          of_decide_eq_true ((Bool.and_eq_true _ _).mp hg).2
        refine updateNamed_01 _ _ _ h (fun t ht => ?_)
        have ht01 := h t ht
        refine ⟨?_, min_le_left _ _, ht01.2.2.1, ht01.2.2.2⟩
        refine le_min (by norm_num) ?_
        have hterm : 0 ≤ (cfg.heal_to - dep.health) * (1/2) :=
          mul_nonneg (by linarith) (by norm_num)
        linarith [hd01.1]
      · simp only [hg, if_false]
        exact h

/-- Any per-state invariant preserved by `rippleStep` survives the
dependent loop of the ripple walk. -/
theorem processDeps_inv (cfg : Config) (P : List Service → Prop)
    (hstep : ∀ svs d, P svs → P (rippleStep cfg svs d).1) :
    ∀ (ds q v : List String) (svs : List Service)
      (rec : List (String × ℚ × ℚ)),
      P svs → P (processDeps cfg ds q v svs rec).2.2.1 := by
  intro ds
  induction ds with
  | nil =>
      intro q v svs rec h
      exact h
  | cons d rest ih =>
      intro q v svs rec h
      simp only [processDeps]
      by_cases hv : d ∈ v
      · rw [if_pos hv]
        exact ih _ _ _ _ h
      · rw [if_neg hv]
        have h1 : P (rippleStep cfg svs d).1 := hstep svs d h
        cases hr : rippleStep cfg svs d with
        | mk svs1 entry =>
            rw [hr] at h1
            cases entry with
            | none => exact ih _ _ _ _ h1
            | some e => exact ih _ _ _ _ h1

/-- Any per-state invariant preserved by `rippleStep` survives the
whole ripple walk. -/
theorem recoveryLoop_inv (cfg : Config) (P : List Service → Prop)
    (hstep : ∀ svs d, P svs → P (rippleStep cfg svs d).1) :
    ∀ (fuel : Nat) (q v : List String) (svs : List Service)
      (rec : List (String × ℚ × ℚ)),
      P svs → P (recoveryLoop cfg fuel q v svs rec).1 := by
  intro fuel
  induction fuel with
  | zero =>
      intro q v svs rec h
      simpa [recoveryLoop] using h
  | succ m ih =>
      intro q v svs rec h
      cases q with
      | nil => simpa [recoveryLoop] using h
      | cons current rest =>
          simp only [recoveryLoop]
          exact ih _ _ _ _ (processDeps_inv cfg P hstep _ _ _ _ _ h)

/-- The ripple walk keeps all healths in the unit interval. -/
theorem propagate_recovery_01 (cfg : Config) (svs : List Service) (start : String)
    (h : healthsIn01 svs) : healthsIn01 (propagate_recovery cfg svs start) :=
  recoveryLoop_inv cfg healthsIn01 (fun svs2 d h2 => rippleStep_01 cfg svs2 d h2)
    _ _ _ _ _ h

/-- Timer decrements do not touch healths. -/
theorem tickTimers_01 (svs : List Service) (h : healthsIn01 svs) :
    healthsIn01 (tickTimers svs) := by
  intro t ht
  unfold tickTimers at ht
  obtain ⟨u, hu, rfl⟩ := List.mem_map.mp ht
  by_cases hb : (u.is_failed && decide (0 < u.recovery_timer)) = true
  · simpa [hb] using h u hu
  · simpa [hb] using h u hu

/-- Healing one service keeps all healths in the unit interval,
provided `heal_to` lies in it. -/
theorem healOne_01 (cfg : Config) (hh : 0 ≤ cfg.heal_to ∧ cfg.heal_to ≤ 1)
    (svs : List Service) (n : String) (h : healthsIn01 svs) :
    healthsIn01 (healOne cfg svs n) := by
  unfold healOne
  apply propagate_recovery_01
  refine updateNamed_01 _ _ _ h (fun t ht => ?_)
  have ht01 := h t ht
  exact ⟨hh.1, hh.2, ht01.2.2.1, ht01.2.2.2⟩

/-- The recovery scheduler keeps all healths in the unit interval,
provided `heal_to` lies in it. -/
theorem handle_recovery_01 (cfg : Config) (hh : 0 ≤ cfg.heal_to ∧ cfg.heal_to ≤ 1)
    (svs : List Service) (h : healthsIn01 svs) :
    healthsIn01 (handle_recovery cfg svs) := by
  cases hc : cfg.cooldown with
  | none =>
      simpa [handle_recovery, hc] using h
  | some c =>
      simp only [handle_recovery, hc]
      exact foldlInv _ _ (tickTimers_01 svs h)
        (fun acc b hacc => healOne_01 cfg hh acc b hacc)

/-- C1 (amended): construction does not clamp (see
`C1_counterexample`), so the invariant holds conditionally: if every
health and baseline lies in `[0,1]`, the glitch delta is nonnegative
(uniform(0.2,0.5) always is) and the configured `heal_to` lies in
`[0,1]`, then each engine mutation - glitch, degradation propagation,
recovery scheduling (heal), and the ripple walk - keeps every health
and baseline in `[0,1]`. -/
theorem C1_theorem (cfg : Config) (choice : Nat) (delta : ℚ) (svs : List Service)
    (start : String) (h : healthsIn01 svs) (hd : 0 ≤ delta)
    (hh : 0 ≤ cfg.heal_to ∧ cfg.heal_to ≤ 1) :
    healthsIn01 (apply_glitch cfg choice delta svs).1 ∧
    healthsIn01 (propagate_health cfg svs) ∧
    healthsIn01 (handle_recovery cfg svs) ∧
    healthsIn01 (propagate_recovery cfg svs start) :=
  ⟨apply_glitch_01 cfg choice delta svs h hd,
   propagateLoop_01 cfg svs.length svs h,
   handle_recovery_01 cfg hh svs h,
   propagate_recovery_01 cfg svs start h⟩

unseal Rat.mul Rat.add Rat.sub Rat.inv in
/-- Witness for `C1_theorem` on a concrete two-service state. -/
theorem C1_witness :
    healthsIn01 svsC1 ∧ (0 : ℚ) ≤ 3/10 ∧
    (0 ≤ cfgC1.heal_to ∧ cfgC1.heal_to ≤ 1) ∧
    (healthsIn01 (apply_glitch cfgC1 0 (3/10) svsC1).1 ∧
     healthsIn01 (propagate_health cfgC1 svsC1) ∧
     healthsIn01 (handle_recovery cfgC1 svsC1) ∧
     healthsIn01 (propagate_recovery cfgC1 svsC1 "X")) :=
  ⟨by decide, by decide, by decide,
   C1_theorem cfgC1 0 (3/10) svsC1 "X" (by decide) (by decide) (by decide)⟩

/-! Ripple-walk bookkeeping: machinery for C4. -/

/-- A recorded bump entry carries the name of the dependent that was
examined. -/
theorem rippleStep_entry_name (cfg : Config) (svs : List Service) (d : String)
    (svs1 : List Service) (e : String × ℚ × ℚ)
    (h : rippleStep cfg svs d = (svs1, some e)) : e.1 = d := by
  unfold rippleStep at h
  cases hf : findService svs d with
  | none =>
      rw [hf] at h
      dsimp only at h
      injection h with h1 h2
      cases h2
  | some dep =>
      rw [hf] at h
      dsimp only at h
      by_cases hg : (depsHealthy cfg svs dep && decide (dep.health < cfg.heal_to)) = true
      · rw [if_pos hg] at h
        injection h with h1 h2
        injection h2 with h2
        rw [← h2]
      · rw [if_neg hg] at h
        injection h with h1 h2
        cases h2

/-- The dependent loop preserves the visited/recovered invariant. -/
theorem processDeps_recInv (cfg : Config) (start : String) :
    ∀ (ds q v : List String) (svs : List Service)
      (rec : List (String × ℚ × ℚ)),
      RecInv start v rec →
      RecInv start (processDeps cfg ds q v svs rec).2.1
        (processDeps cfg ds q v svs rec).2.2.2 := by
  intro ds
  induction ds with
  | nil =>
      intro q v svs rec h
      exact h
  | cons d rest ih =>
      intro q v svs rec h
      simp only [processDeps]
      by_cases hv : d ∈ v
      · rw [if_pos hv]
        exact ih _ _ _ _ h
      · rw [if_neg hv]
        cases hr : rippleStep cfg svs d with
        | mk svs1 entry =>
            cases entry with
            | none => exact ih _ _ _ _ h
            | some e =>
                have he : e.1 = d := rippleStep_entry_name cfg svs d svs1 e hr
                refine ih _ _ _ _ ?_
                obtain ⟨hsub, hnodup, hstart, hne⟩ := h
                refine ⟨?_, ?_, List.mem_append_left _ hstart, ?_⟩
                · intro x hx
                  rw [List.map_append] at hx
                  rcases List.mem_append.mp hx with hx | hx
                  · exact List.mem_append_left _ (hsub x hx)
                  · simp only [List.map_cons, List.map_nil, List.mem_singleton] at hx
                    rw [hx, he]
                    exact List.mem_append_right _ (by simp)
                · rw [List.map_append]
                  refine List.Nodup.append hnodup (by simp) ?_
                  intro x hx hx2
                  simp only [List.map_cons, List.map_nil, List.mem_singleton] at hx2
                  rw [hx2, he] at hx
                  exact hv (hsub _ hx)
                · intro x hx
                  rw [List.map_append] at hx
                  rcases List.mem_append.mp hx with hx | hx
                  · exact hne x hx
                  · simp only [List.map_cons, List.map_nil, List.mem_singleton] at hx
                    rw [hx, he]
                    intro hcon
                    rw [hcon] at hv
                    exact hv hstart

/-- The ripple-walk loop preserves the visited/recovered invariant
(for some final visited set). -/
theorem recoveryLoop_recInv (cfg : Config) (start : String) :
    ∀ (fuel : Nat) (q v : List String) (svs : List Service)
      (rec : List (String × ℚ × ℚ)),
      RecInv start v rec →
      ∃ v2, RecInv start v2 (recoveryLoop cfg fuel q v svs rec).2 := by
  intro fuel
  induction fuel with
  | zero =>
      intro q v svs rec h
      exact ⟨v, h⟩
  | succ m ih =>
      intro q v svs rec h
      cases q with
      | nil => exact ⟨v, h⟩
      | cons current rest =>
          simp only [recoveryLoop]
          exact ih _ _ _ _ (processDeps_recInv cfg start _ _ _ _ _ h)

/-- C4 (amended): in one invocation of `propagate_recovery` each node
receives at most one health bump - the recovered ledger never repeats a
node and never contains the healed start node.  However, the walk
enqueues (and marks visited) only dependents that actually received a
bump (domino.py lines 255-266): a first-encountered dependent left
un-bumped is not continued through, contrary to the claim's second
part (see `C4_counterexample`). -/
theorem C4_theorem (cfg : Config) (svs : List Service) (start : String) :
    (((propagate_recovery_full cfg svs start).2).map Prod.fst).Nodup ∧
    ∀ x ∈ ((propagate_recovery_full cfg svs start).2).map Prod.fst, x ≠ start := by
  obtain ⟨v2, hsub, hnodup, hstart, hne⟩ :=
    recoveryLoop_recInv cfg start (svs.length + 1) [start] [start] svs []
      ⟨by simp, by simp, by simp, by simp⟩
  exact ⟨hnodup, hne⟩

/-! Root-cause analysis: machinery for C7. -/

/-- Specification of the `min(..., key=health)` fold: the result is the
start element or a list element, its health is at most the start's, and
at most every list element's. -/
theorem foldlMin_spec (s : Service) (l : List Service) :
    ((l.foldl (fun m t => if t.health < m.health then t else m) s) = s ∨
      (l.foldl (fun m t => if t.health < m.health then t else m) s) ∈ l) ∧
    (l.foldl (fun m t => if t.health < m.health then t else m) s).health ≤ s.health ∧
    ∀ t ∈ l, (l.foldl (fun m t => if t.health < m.health then t else m) s).health ≤ t.health := by
  induction l generalizing s with
  | nil =>
      exact ⟨Or.inl rfl, le_refl _, fun t ht => absurd ht (List.not_mem_nil t)⟩
  | cons x xs ih =>
      simp only [List.foldl_cons]
      obtain ⟨hmem, hle, hall⟩ := ih (if x.health < s.health then x else s)
      refine ⟨?_, ?_, ?_⟩
      · rcases hmem with hm | hm
        · by_cases hx : x.health < s.health
          · right
            rw [hm, if_pos hx]
            exact List.mem_cons_self _ _
          · left
            rw [hm, if_neg hx]
        · right
          exact List.mem_cons_of_mem _ hm
      · refine le_trans hle ?_
        by_cases hx : x.health < s.health
        · rw [if_pos hx]
          exact le_of_lt hx
        · rw [if_neg hx]
      · intro t ht
        rcases List.mem_cons.mp ht with rfl | ht2
        · refine le_trans hle ?_
          by_cases hx : t.health < s.health
          · rw [if_pos hx]
          · rw [if_neg hx]
            exact le_of_not_lt hx
        · exact hall t ht2

/-- `min(failed, key=health)` returns a member of minimal health. -/
theorem minByHealth_spec (l : List Service) (m : Service)
    (h : minByHealth l = some m) : m ∈ l ∧ ∀ t ∈ l, m.health ≤ t.health := by
  cases l with
  | nil => cases h
  | cons s rest =>
      simp only [minByHealth] at h
      have h2 := Option.some_injective _ h
      obtain ⟨hmem, hle, hall⟩ := foldlMin_spec s rest
      subst h2
      refine ⟨?_, ?_⟩
      · rcases hmem with hm | hm
        · rw [hm]
          exact List.mem_cons_self _ _
        · exact List.mem_cons_of_mem _ hm
      · intro t ht
        rcases List.mem_cons.mp ht with rfl | ht2
        · exact hle
        · exact hall t ht2

/-- On a nonempty list `firstMaxBy` yields an element. -/
theorem firstMaxBy_isSome (k : Service → Nat) (x : Service) (xs : List Service) :
    ∃ m, firstMaxBy k (x :: xs) = some m := by
  simp only [firstMaxBy]
  cases firstMaxBy k xs with
  | none => exact ⟨x, rfl⟩
  | some m =>
      by_cases hk : k x < k m
      · exact ⟨m, by dsimp only; rw [if_pos hk]⟩
      · exact ⟨x, by dsimp only; rw [if_neg hk]⟩

/-- `firstMaxBy` returns a member of the list. -/
theorem firstMaxBy_mem (k : Service → Nat) :
    ∀ (l : List Service) (m : Service), firstMaxBy k l = some m → m ∈ l := by
  intro l
  induction l with
  | nil => intro m h; cases h
  | cons x xs ih =>
      intro m h
      simp only [firstMaxBy] at h
      cases hx : firstMaxBy k xs with
      | none =>
          rw [hx] at h
          dsimp only at h
          have h2 := Option.some_injective _ h
          rw [← h2]
          exact List.mem_cons_self _ _
      | some m2 =>
          rw [hx] at h
          dsimp only at h
          by_cases hk : k x < k m2
          · rw [if_pos hk] at h
            have h2 := Option.some_injective _ h
            rw [← h2]
            exact List.mem_cons_of_mem _ (ih m2 hx)
          · rw [if_neg hk] at h
            have h2 := Option.some_injective _ h
            rw [← h2]
            exact List.mem_cons_self _ _

/-- `firstMaxBy` attains the maximal key over the list. -/
theorem firstMaxBy_max (k : Service → Nat) :
    ∀ (l : List Service) (m : Service), firstMaxBy k l = some m →
      ∀ x ∈ l, k x ≤ k m := by
  intro l
  induction l with
  | nil => intro m h; cases h
  | cons y ys ih =>
      intro m h x hx
      simp only [firstMaxBy] at h
      cases hy : firstMaxBy k ys with
      | none =>
          rw [hy] at h
          dsimp only at h
          have hm := Option.some_injective _ h
          rcases List.mem_cons.mp hx with rfl | hx2
          · rw [← hm]
          · cases ys with
            | nil => cases hx2
            | cons a as =>
                obtain ⟨mm, hmm⟩ := firstMaxBy_isSome k a as
                rw [hmm] at hy
                cases hy
      | some m2 =>
          rw [hy] at h
          dsimp only at h
          by_cases hk : k y < k m2
          · rw [if_pos hk] at h
            have hm := Option.some_injective _ h
            rcases List.mem_cons.mp hx with rfl | hx2
            · rw [← hm]
              exact le_of_lt hk
            · rw [← hm]
              exact ih m2 hy x hx2
          · rw [if_neg hk] at h
            have hm := Option.some_injective _ h
            rcases List.mem_cons.mp hx with rfl | hx2
            · rw [← hm]
            · rw [← hm]
              exact le_trans (ih m2 hy x hx2) (le_of_not_lt hk)

/-- The head of the stable descending sort is the first element of the
original list attaining the maximal key: `sorted(..., reverse=True)[0]`
is exactly `firstMaxBy`. -/
theorem sortDescBy_head (k : Service → Nat) :
    ∀ l : List Service, (sortDescBy k l).head? = firstMaxBy k l := by
  intro l
  induction l with
  | nil => rfl
  | cons x xs ih =>
      simp only [sortDescBy, firstMaxBy]
      cases hs : sortDescBy k xs with
      | nil =>
          rw [hs] at ih
          rw [← ih]
          rfl
      | cons y ys =>
          rw [hs] at ih
          rw [← ih]
          by_cases hk : k x < k y
          · simp only [insertDescF, if_pos hk, List.head?_cons]
          · simp only [insertDescF, if_neg hk, List.head?_cons]

/-- C7: with a nonempty failure set F, the root set is exactly the
failed services none of whose in-graph dependencies is failed; when
that filter is empty the root set is the singleton first
minimal-health member of F; and the priority (remediation suggestion)
is the first root attaining the maximal blast-radius size - maximal
size with ties broken by discovery order. -/
theorem C7_theorem (cfg : Config) (svs : List Service)
    (hne : failedServices cfg svs ≠ []) :
    ((failedServices cfg svs).filter (isRootIn svs) ≠ [] →
      rcaRoots svs (failedServices cfg svs) =
        (failedServices cfg svs).filter (isRootIn svs)) ∧
    ((failedServices cfg svs).filter (isRootIn svs) = [] →
      ∃ m, rcaRoots svs (failedServices cfg svs) = [m] ∧
        m ∈ failedServices cfg svs ∧
        ∀ t ∈ failedServices cfg svs, m.health ≤ t.health) ∧
    rcaPriority svs (failedServices cfg svs) =
      firstMaxBy (radiusLen svs) (rcaRoots svs (failedServices cfg svs)) ∧
    ∀ p, rcaPriority svs (failedServices cfg svs) = some p →
      p ∈ rcaRoots svs (failedServices cfg svs) ∧
      ∀ r ∈ rcaRoots svs (failedServices cfg svs),
        radiusLen svs r ≤ radiusLen svs p := by
  refine ⟨?_, ?_, ?_, ?_⟩
  · intro hfil
    unfold rcaRoots
    rw [if_neg (by simpa [List.isEmpty_iff] using hfil)]
  · intro hfil
    unfold rcaRoots
    rw [if_pos (by simpa [List.isEmpty_iff] using hfil)]
    cases hm : minByHealth (failedServices cfg svs) with
    | none =>
        cases hF : failedServices cfg svs with
        | nil => exact absurd hF hne
        | cons a as =>
            rw [hF] at hm
            simp [minByHealth] at hm
    | some m =>
        obtain ⟨hmem, hall⟩ := minByHealth_spec _ m hm
        exact ⟨m, by simp, hmem, hall⟩
  · unfold rcaPriority rcaSorted
    exact sortDescBy_head _ _
  · intro p hp
    unfold rcaPriority rcaSorted at hp
    rw [sortDescBy_head] at hp
    exact ⟨firstMaxBy_mem _ _ p hp, fun r hr => firstMaxBy_max _ _ p hp r hr⟩

unseal Rat.mul Rat.add Rat.sub Rat.inv in
/-- Witness for `C7_theorem` on the concrete failure set of `svsC7`:
F = [A, B], the root filter yields [A], and A (blast radius of size 2)
is the priority. -/
theorem C7_witness :
    failedServices cfgC7 svsC7 ≠ [] ∧
    (((failedServices cfgC7 svsC7).filter (isRootIn svsC7) ≠ [] →
      rcaRoots svsC7 (failedServices cfgC7 svsC7) =
        (failedServices cfgC7 svsC7).filter (isRootIn svsC7)) ∧
    ((failedServices cfgC7 svsC7).filter (isRootIn svsC7) = [] →
      ∃ m, rcaRoots svsC7 (failedServices cfgC7 svsC7) = [m] ∧
        m ∈ failedServices cfgC7 svsC7 ∧
        ∀ t ∈ failedServices cfgC7 svsC7, m.health ≤ t.health) ∧
    rcaPriority svsC7 (failedServices cfgC7 svsC7) =
      firstMaxBy (radiusLen svsC7) (rcaRoots svsC7 (failedServices cfgC7 svsC7)) ∧
    ∀ p, rcaPriority svsC7 (failedServices cfgC7 svsC7) = some p →
      p ∈ rcaRoots svsC7 (failedServices cfgC7 svsC7) ∧
      ∀ r ∈ rcaRoots svsC7 (failedServices cfgC7 svsC7),
        radiusLen svsC7 r ≤ radiusLen svsC7 p) :=
  ⟨by decide, C7_theorem cfgC7 svsC7 (by decide)⟩

/-! Cooldown-zero recovery: machinery for C10. -/

/-- The newly-failed transition under cooldown 0 assigns timer 0. -/
theorem classify_timer_zero (cfg : Config) (tick : Nat) (svs : List Service)
    (n : String) (s : Service) (hc : cfg.cooldown = some 0)
    (hf : findService svs n = some s) (hh : s.health < cfg.threshold)
    (hns : s.is_failed = false) :
    findService (classifyFailures cfg tick svs) n =
      some { s with is_failed := true, failed_at_tick := (tick : Int),
                    recovery_timer := 0 } := by
  unfold classifyFailures
  rw [findService_map _
    (fun t => by
      by_cases hb : (decide (t.health < cfg.threshold) && !t.is_failed) = true <;>
        simp [hb]), hf]
  have hcond : (decide (s.health < cfg.threshold) && !s.is_failed) = true := by
    simp [hh, hns]
  simp only [Option.map_some']
  rw [if_pos hcond, hc]
  rfl

/-- A ripple examination never disturbs a node already carrying the
post-heal values: a bump requires health strictly below `heal_to`. -/
theorem rippleStep_healedAt (cfg : Config) (n : String) (svs : List Service)
    (d : String) (h : HealedAt cfg n svs) :
    HealedAt cfg n (rippleStep cfg svs d).1 := by
  obtain ⟨s2, hf2, hh, hfl, ht⟩ := h
  unfold rippleStep
  cases hf : findService svs d with
  | none => exact ⟨s2, hf2, hh, hfl, ht⟩
  | some dep =>
      dsimp only
      by_cases hg : (depsHealthy cfg svs dep && decide (dep.health < cfg.heal_to)) = true
      · rw [if_pos hg]
        by_cases hdn : n = d
        · rw [← hdn] at hf
          rw [hf2] at hf
          have hdep : dep = s2 := (Option.some_injective _ hf).symm
          have hlt : dep.health < cfg.heal_to :=
            of_decide_eq_true ((Bool.and_eq_true _ _).mp hg).2
          rw [hdep, hh] at hlt
          exact absurd hlt (lt_irrefl _)
        · refine ⟨s2, ?_, hh, hfl, ht⟩
          unfold updateNamed
          rw [findService_map _
            (fun t => by by_cases hb : (t.name == d) = true <;>
              simp [hb, rippleWrite]), hf2]
          have hs2n : s2.name = n := by simpa using List.find?_some hf2
          have hne : (s2.name == d) = false := by
            rw [hs2n]
            exact beq_eq_false_iff_ne.mpr hdn
          simp [hne]
          intro hcon
          rw [hs2n] at hcon
          exact absurd hcon hdn
      · rw [if_neg hg]
        exact ⟨s2, hf2, hh, hfl, ht⟩

/-- Healing any service preserves the post-heal values at `n` (healing
`n` itself rewrites the same three values). -/
theorem healOne_healedAt (cfg : Config) (n : String) (svs : List Service)
    (m : String) (h : HealedAt cfg n svs) : HealedAt cfg n (healOne cfg svs m) := by
  unfold healOne
  have h1 : HealedAt cfg n (updateNamed svs m (fun t =>
      { t with health := cfg.heal_to, is_failed := false, recovery_timer := -1 })) := by
    obtain ⟨s2, hf2, hh, hfl, ht⟩ := h
    have hfind : findService (updateNamed svs m (fun t =>
        { t with health := cfg.heal_to, is_failed := false, recovery_timer := -1 })) n =
        (findService svs n).map (fun t => if t.name == m then
          { t with health := cfg.heal_to, is_failed := false, recovery_timer := -1 }
        else t) := by
      unfold updateNamed
      exact findService_map _
        (fun t => by by_cases hb : (t.name == m) = true <;> simp [hb]) svs n
    by_cases hb : (s2.name == m) = true
    · refine ⟨{ s2 with health := cfg.heal_to, is_failed := false, recovery_timer := -1 },
        ?_, rfl, rfl, rfl⟩
      rw [hfind, hf2]
      simp [hb]
      intro hcon
      exact absurd (beq_iff_eq.mp hb) hcon
    · refine ⟨s2, ?_, hh, hfl, ht⟩
      rw [hfind, hf2]
      simp [hb]
      intro hcon
      exact absurd hcon (by simpa using hb)
  exact recoveryLoop_inv cfg (HealedAt cfg n)
    (fun svs2 d h2 => rippleStep_healedAt cfg n svs2 d h2) _ _ _ _ _ h1

/-- A ripple examination keeps a record present at `n`. -/
theorem rippleStep_findSome (cfg : Config) (n : String) (svs : List Service)
    (d : String) (h : ∃ u, findService svs n = some u) :
    ∃ u, findService (rippleStep cfg svs d).1 n = some u := by
  obtain ⟨u, hu⟩ := h
  unfold rippleStep
  cases hf : findService svs d with
  | none => exact ⟨u, hu⟩
  | some dep =>
      dsimp only
      by_cases hg : (depsHealthy cfg svs dep && decide (dep.health < cfg.heal_to)) = true
      · rw [if_pos hg]
        unfold updateNamed
        rw [findService_map _
          (fun t => by by_cases hb : (t.name == d) = true <;>
            simp [hb, rippleWrite]), hu]
        exact ⟨_, rfl⟩
      · rw [if_neg hg]
        exact ⟨u, hu⟩

/-- Healing any service keeps a record present at `n`. -/
theorem healOne_findSome (cfg : Config) (n : String) (svs : List Service)
    (m : String) (h : ∃ u, findService svs n = some u) :
    ∃ u, findService (healOne cfg svs m) n = some u := by
  unfold healOne
  have h1 : ∃ u, findService (updateNamed svs m (fun t =>
      { t with health := cfg.heal_to, is_failed := false, recovery_timer := -1 })) n =
      some u := by
    obtain ⟨u, hu⟩ := h
    refine ⟨if u.name == m then
        { u with health := cfg.heal_to, is_failed := false, recovery_timer := -1 }
      else u, ?_⟩
    have hfind : findService (updateNamed svs m (fun t =>
        { t with health := cfg.heal_to, is_failed := false, recovery_timer := -1 })) n =
        (findService svs n).map (fun t => if t.name == m then
          { t with health := cfg.heal_to, is_failed := false, recovery_timer := -1 }
        else t) := by
      unfold updateNamed
      exact findService_map _
        (fun t => by by_cases hb : (t.name == m) = true <;> simp [hb]) svs n
    rw [hfind, hu]
    rfl
  exact recoveryLoop_inv cfg (fun svs2 => ∃ u, findService svs2 n = some u)
    (fun svs2 d h2 => rippleStep_findSome cfg n svs2 d h2) _ _ _ _ _ h1

/-- Healing `n` itself establishes the post-heal values at `n`. -/
theorem healOne_self (cfg : Config) (n : String) (svs : List Service)
    (h : ∃ u, findService svs n = some u) : HealedAt cfg n (healOne cfg svs n) := by
  obtain ⟨u, hu⟩ := h
  unfold healOne
  have h1 : HealedAt cfg n (updateNamed svs n (fun t =>
      { t with health := cfg.heal_to, is_failed := false, recovery_timer := -1 })) := by
    have hfind : findService (updateNamed svs n (fun t =>
        { t with health := cfg.heal_to, is_failed := false, recovery_timer := -1 })) n =
        (findService svs n).map (fun t => if t.name == n then
          { t with health := cfg.heal_to, is_failed := false, recovery_timer := -1 }
        else t) := by
      unfold updateNamed
      exact findService_map _
        (fun t => by by_cases hb : (t.name == n) = true <;> simp [hb]) svs n
    have hb : (u.name == n) = true := by simpa using List.find?_some hu
    refine ⟨{ u with health := cfg.heal_to, is_failed := false, recovery_timer := -1 },
      ?_, rfl, rfl, rfl⟩
    rw [hfind, hu]
    simp [hb]
    intro hcon
    exact absurd (beq_iff_eq.mp hb) hcon
  exact recoveryLoop_inv cfg (HealedAt cfg n)
    (fun svs2 d h2 => rippleStep_healedAt cfg n svs2 d h2) _ _ _ _ _ h1

/-- With cooldown configured, a service whose timer is exactly 0 at the
start of the recovery phase is healed by it: the decrement pass skips
it (the decrement needs a strictly positive timer), it enters
`services_to_heal`, and its heal sets health to `heal_to`, clears
`is_failed` and sets the timer to -1; no later heal or ripple of the
same pass disturbs those values. -/
theorem handle_recovery_heals (cfg : Config) (svs : List Service) (n : String)
    (s : Service) (c : Int) (hc : cfg.cooldown = some c)
    (hf : findService svs n = some s) (ht0 : s.recovery_timer = 0) :
    HealedAt cfg n (handle_recovery cfg svs) := by
  have hft : findService (tickTimers svs) n = some s := by
    unfold tickTimers
    rw [findService_map _
      (fun t => by
        by_cases hb : (t.is_failed && decide (0 < t.recovery_timer)) = true <;>
          simp [hb]), hf]
    have hcond : (s.is_failed && decide (0 < s.recovery_timer)) = false := by
      simp [ht0]
    simp [hcond]
    intro h1 h2
    rw [ht0] at h2
    exact absurd h2 (lt_irrefl 0)
  have hmem : n ∈ servicesToHeal (tickTimers svs) := by
    unfold servicesToHeal
    have hsmem : s ∈ tickTimers svs := List.mem_of_find?_eq_some hft
    have hsname : s.name = n := by simpa using List.find?_some hft
    refine List.mem_map.mpr ⟨s, ?_, hsname⟩
    rw [List.mem_filter]
    exact ⟨hsmem, by simp [ht0]⟩
  unfold handle_recovery
  rw [hc]
  dsimp only
  obtain ⟨l1, l2, hsplit⟩ := List.append_of_mem hmem
  rw [hsplit, List.foldl_append, List.foldl_cons]
  have hpre : ∃ u, findService (List.foldl (healOne cfg) (tickTimers svs) l1) n = some u :=
    foldlInv l1 (tickTimers svs) ⟨s, hft⟩
      (fun acc b hacc => healOne_findSome cfg n acc b hacc)
  exact foldlInv l2 _ (healOne_self cfg n _ hpre)
    (fun acc b hacc => healOne_healedAt cfg n acc b hacc)

/-- C10: under cooldown 0, (a) the newly-failed transition of
`run_tick` assigns `recovery_timer = 0` to a service that is below
threshold and not yet marked failed, and (b) the next tick's recovery
phase heals any service whose timer is 0 - setting health to
`heal_to`, clearing `is_failed` and setting the timer to -1 - without
ever decrementing the timer (the decrement branch requires a strictly
positive timer, and the heal writes -1 directly). -/
theorem C10_theorem (cfg : Config) (tick : Nat) (svs : List Service)
    (n : String) (s : Service) (hc : cfg.cooldown = some 0) :
    (findService svs n = some s → s.health < cfg.threshold → s.is_failed = false →
      findService (classifyFailures cfg tick svs) n =
        some { s with is_failed := true, failed_at_tick := (tick : Int),
                      recovery_timer := 0 }) ∧
    (findService svs n = some s → s.recovery_timer = 0 →
      ∃ s2, findService (handle_recovery cfg svs) n = some s2 ∧
        s2.health = cfg.heal_to ∧ s2.is_failed = false ∧ s2.recovery_timer = -1) :=
  ⟨fun hf hh hns => classify_timer_zero cfg tick svs n s hc hf hh hns,
   fun hf ht0 => handle_recovery_heals cfg svs n s 0 hc hf ht0⟩

unseal Rat.mul Rat.add Rat.sub Rat.inv in
/-- Witness for `C10_theorem`: part (a) at the newly-crossed service of
`svsC10a` (tick 5), part (b) at the timer-0 service of `svsC10b`. -/
theorem C10_witness :
    cfgC10.cooldown = some 0 ∧
    findService svsC10a "X" = some svcC10a ∧
    svcC10a.health < cfgC10.threshold ∧ svcC10a.is_failed = false ∧
    findService (classifyFailures cfgC10 5 svsC10a) "X" =
      some { svcC10a with is_failed := true, failed_at_tick := (5 : Int),
                          recovery_timer := 0 } ∧
    findService svsC10b "X" = some svcC10b ∧ svcC10b.recovery_timer = 0 ∧
    ∃ s2, findService (handle_recovery cfgC10 svsC10b) "X" = some s2 ∧
      s2.health = cfgC10.heal_to ∧ s2.is_failed = false ∧ s2.recovery_timer = -1 :=
  ⟨by decide, by decide, by decide, by decide,
   (C10_theorem cfgC10 5 svsC10a "X" svcC10a (by decide)).1
     (by decide) (by decide) (by decide),
   by decide, by decide,
   (C10_theorem cfgC10 9 svsC10b "X" svcC10b (by decide)).2 (by decide) (by decide)⟩

end Domino
